import Mathlib

/-!
Verification of the combobox/autocomplete state machine and its helpers
(google-autocomplete repository).

The development shallowly embeds the JavaScript source:

* `JSVal` models the primitive JavaScript values the component stores in its
  state fields (`undefined`, `null`, booleans, numbers, strings).  Strict
  equality (`===`/`!==`) is `DecidableEq` on `JSVal`; truthiness is `truthy`.
* The `<Autocomplete>` component (src/unnamed/part_001) keeps four state
  fields (`highlightedIndex`, `isOpen`, `inputValue`, `selectedItem`), each of
  which may be "controlled" (supplied by the caller as a prop).  `getState`
  merges internal storage with controlled props, and `internalSetState` is the
  single state-update primitive; both are translated line by line.
* Partial-state objects passed around by the component (`otherStateToSet`,
  `pickState`, object spread) are modelled as `RawObj := String → Option JSVal`
  where `none` means the key is absent.
* The debounced prediction fetcher (GooglePredictions.js together with the
  trailing-edge debounce of utils.js) is modelled on an abstract discrete
  timeline: a trigger at time `c` makes the debounced body run at `c + wait`
  unless another trigger lands strictly inside `(c, c + wait)`.
* `GoogleLibraryService` credential validation (src/unnamed/part_000) is
  modelled by `validateLicense`.
-/

/-- JavaScript primitive values as stored in the component's state fields. -/
inductive JSVal where
  | undef : JSVal
  | null : JSVal
  | b : Bool → JSVal
  | i : Int → JSVal
  | s : String → JSVal
deriving DecidableEq, Repr

/-- JavaScript truthiness of a `JSVal`. -/
def truthy : JSVal → Bool
  | JSVal.undef => false
  | JSVal.null => false
  | JSVal.b x => x
  | JSVal.i n => decide (n ≠ 0)
  | JSVal.s x => decide (x ≠ "")

/-- The four state fields of the `<Autocomplete>` component
(`this.state` keys set up by the constructor). -/
inductive StateField where
  | highlightedIndex : StateField
  | isOpen : StateField
  | inputValue : StateField
  | selectedItem : StateField
deriving DecidableEq, Repr

/-- All four state fields, in the order they appear in the constructor. -/
def StateField.all : List StateField :=
  [StateField.highlightedIndex, StateField.isOpen, StateField.inputValue, StateField.selectedItem]

/-- The JavaScript property name of a state field. -/
def keyOfField : StateField → String
  | StateField.highlightedIndex => "highlightedIndex"
  | StateField.isOpen => "isOpen"
  | StateField.inputValue => "inputValue"
  | StateField.selectedItem => "selectedItem"

/-- The default `itemToString` prop:
`i => (i == null ? '' : String(i))`.  Loose equality `== null` holds for both
`null` and `undefined`; `String(...)` is JavaScript string conversion. -/
def defaultItemToString : JSVal → String
  | JSVal.undef => ""
  | JSVal.null => ""
  | JSVal.b true => "true"
  | JSVal.b false => "false"
  | JSVal.i n => toString n
  | JSVal.s x => x

/-- The props of the `<Autocomplete>` component that the modelled operations
consult.  `controlled f = some v` means the caller passed the prop `f` with
value `v` (so `isControlledProp` is true for `f`); `none` means the prop is
`undefined`.  `breakingChanges = some r` models a `breakingChanges` prop whose
`resetInputOnSelection` member has truthiness `r`; `none` models the prop being
absent (its default: it is neither in `defaultProps` nor ever passed). -/
structure Props where
  controlled : StateField → Option JSVal
  defaultHighlightedIndex : JSVal
  defaultInputValue : String
  itemToString : JSVal → String
  breakingChanges : Option Bool
  itemCount : Option Int

/-- `isControlledProp(key)`: `this.props[key] !== undefined`. -/
def isControlledProp (p : Props) (f : StateField) : Bool :=
  (p.controlled f).isSome

/-- Mutable per-instance data besides props: the internal `this.state` store,
the per-render `this.items` array, and the `this.itemCount` override
(`none` models its `null` initial value). -/
structure Inst where
  store : StateField → JSVal
  items : List JSVal
  itemCount : Option Int

/-- `getItemCount()`: priority order `this.itemCount`, then `props.itemCount`,
then `this.items.length`. -/
def getItemCount (p : Props) (inst : Inst) : Int :=
  match inst.itemCount with
  | some c => c
  | none =>
    match p.itemCount with
    | some c => c
    | none => Int.ofNat inst.items.length

/-- `getState`: the merged view of the state.  For every key of the internal
state, a controlled prop takes priority over internal storage. -/
def getState (p : Props) (store : StateField → JSVal) (f : StateField) : JSVal :=
  match p.controlled f with
  | some v => v
  | none => store f

/-- JavaScript array indexing `this.items[idx]` for the index values the
component produces (`null` from `defaultHighlightedIndex` or an integer).
A `null`/non-integer index, a negative index, or an index past the end all
yield `undefined`. -/
def getItem (items : List JSVal) (idx : JSVal) : JSVal :=
  match idx with
  | JSVal.i n => if 0 ≤ n then items.getD n.toNat JSVal.undef else JSVal.undef
  | _ => JSVal.undef

/-- A resolved partial-state update handed to `internalSetState`:
which of the four fields the update object contains (and with which value),
plus its optional `type` tag. -/
structure Update where
  fields : StateField → Option JSVal
  type : Option JSVal

/-- Everything `internalSetState` produces: the new internal store and the
notifications it fires.  `stateChangeArg` is the changed-keys object passed to
`onStateChange` (the always-changing `type` tag is accounted separately in
`stateChangeFired`); `selectFired`/`selectArg` model the `onSelect` call,
`changeFired`/`changeArg` the `onChange` call, and `inputValueFired` whether
`onInputValueChange` was invoked. -/
structure SetStateResult where
  store : StateField → JSVal
  stateChangeArg : StateField → Option JSVal
  stateChangeFired : Bool
  inputValueFired : Bool
  selectFired : Bool
  selectArg : JSVal
  changeFired : Bool
  changeArg : JSVal

/-- `internalSetState(stateToSet, cb)` for an already-resolved update `u`
(for the function form the caller of this definition first applies the updater
to the merged state, exactly as the source does inside `setState`).

Line-by-line from the source: `isItemSelected` is `hasOwnProperty('selectedItem')`;
`onChangeArg` is assigned only when the new `selectedItem` differs (strictly)
from the merged previous one, and `onChange` later fires only when
`onChangeArg !== undefined`; every key whose new value differs from the merged
state is put into `onStateChangeArg`; the `type` key is skipped for storage;
controlled keys are never written to the internal store; `onStateChange` fires
iff `onStateChangeArg` has more keys than just `type` (the `type` tag itself
always differs from the internal state, which never stores a `type` key, so it
always contributes exactly one key). -/
def internalSetState (p : Props) (store : StateField → JSVal) (u : Update) : SetStateResult :=
  let state := getState p store
  let isItemSelected := (u.fields StateField.selectedItem).isSome
  let newSel := (u.fields StateField.selectedItem).getD JSVal.undef
  let onChangeArg : JSVal :=
    if isItemSelected ∧ newSel ≠ state StateField.selectedItem then newSel else JSVal.undef
  let stateChangeArg : StateField → Option JSVal := fun f =>
    match u.fields f with
    | some v => if state f ≠ v then some v else none
    | none => none
  let newStore : StateField → JSVal := fun f =>
    match u.fields f with
    | some v => if (p.controlled f).isSome then store f else v
    | none => store f
  let changedCount := (StateField.all.filter fun f => (stateChangeArg f).isSome).length
  { store := newStore
    stateChangeArg := stateChangeArg
    stateChangeFired := decide (changedCount + 1 > 1)
    inputValueFired := (u.fields StateField.inputValue).isSome
    selectFired := isItemSelected
    selectArg := newSel
    changeFired := decide (onChangeArg ≠ JSVal.undef)
    changeArg := onChangeArg }

/-- A raw JavaScript partial-state object: a map from property name to value,
`none` meaning the property is absent (`hasOwnProperty` false). -/
def RawObj : Type := String → Option JSVal

/-- The empty object `{}` (also what `pickState(undefined)` produces). -/
def rawEmpty : RawObj := fun _ => none

/-- Object-literal extension `{...o, k0: v}`ordering aside: a base object built
up one explicit property at a time (explicit properties are pairwise distinct
in every call site modelled here). -/
def rawSet (o : RawObj) (k0 : String) (v : JSVal) : RawObj :=
  fun k => if k = k0 then some v else o k

/-- Object spread `{ ...base, ...o }`: properties of `o` win. -/
def rawMerge (base o : RawObj) : RawObj :=
  fun k => match o k with
    | some v => some v
    | none => base k

/-- An object holding only a `type` tag, `{ type: s }`, as passed by the key
handlers. -/
def typeRaw (s : String) : RawObj :=
  fun k => if k = "type" then some (JSVal.s s) else none

/-- The `stateKeys` list of `pickState` (utils.js). -/
def stateKeys : List String :=
  ["highlightedIndex", "inputValue", "isOpen", "selectedItem", "type"]

/-- `pickState(state)`: keeps exactly the properties named in `stateKeys`. -/
def pickState (o : RawObj) : RawObj :=
  fun k => if k ∈ stateKeys then o k else none

/-- Resolve a raw partial-state object into an `Update`: read the four state
fields and the `type` tag by property name. -/
def updOfRaw (o : RawObj) : Update :=
  { fields := fun f => o (keyOfField f), type := o "type" }

/-- Apply `internalSetState` to an instance, producing the updated instance
together with the emitted notifications. -/
def applyISS (p : Props) (inst : Inst) (u : Update) : Inst × SetStateResult :=
  let r := internalSetState p inst.store u
  ({ inst with store := r.store }, r)

/-- Result of a public operation: the updated instance and the list of
notification batches fired (one entry per `internalSetState` call; an early
return produces none). -/
def OpResult : Type := Inst × List SetStateResult

/-- Core of `setHighlightedIndex` after `pickState` was applied to the extra
state: `internalSetState({ highlightedIndex, ...otherStateToSet })` where a
missing first argument defaults to `props.defaultHighlightedIndex`. -/
def setHighlightedIndexC (p : Props) (inst : Inst) (hi : Option JSVal) (o : RawObj) : OpResult :=
  let v := hi.getD p.defaultHighlightedIndex
  let r := applyISS p inst (updOfRaw (rawMerge (rawSet rawEmpty "highlightedIndex" v) o))
  (r.fst, [r.snd])

/-- `setHighlightedIndex(highlightedIndex = props.defaultHighlightedIndex,
otherStateToSet = {})`. -/
def setHighlightedIndex (p : Props) (inst : Inst) (hi : Option JSVal) (o : RawObj) : OpResult :=
  setHighlightedIndexC p inst hi (pickState o)

/-- The `inputValue` the source computes in `selectItem`:
`isControlledProp('selectedItem') && props.breakingChanges.resetInputOnSelection
? props.defaultInputValue : props.itemToString(item)`.  When `selectedItem` is
controlled and no `breakingChanges` prop exists, the member access on
`undefined` throws a `TypeError`, modelled by the `error` branch. -/
def selectInputValue (p : Props) (item : JSVal) : Except String JSVal :=
  if isControlledProp p StateField.selectedItem then
    match p.breakingChanges with
    | none => Except.error "TypeError: cannot read resetInputOnSelection of undefined"
    | some r =>
      if r then Except.ok (JSVal.s p.defaultInputValue)
      else Except.ok (JSVal.s (p.itemToString item))
  else Except.ok (JSVal.s (p.itemToString item))

/-- The explicit properties of the object literal `selectItem` passes to
`internalSetState`: `{ isOpen: false, highlightedIndex:
props.defaultHighlightedIndex, selectedItem: item, inputValue: inputVal }`. -/
def selectBase (p : Props) (item inputVal : JSVal) : RawObj :=
  rawSet (rawSet (rawSet (rawSet rawEmpty
    "isOpen" (JSVal.b false))
    "highlightedIndex" p.defaultHighlightedIndex)
    "selectedItem" item)
    "inputValue" inputVal

/-- Core of `selectItem` after `pickState`:
`internalSetState({ isOpen: false, highlightedIndex: props.defaultHighlightedIndex,
selectedItem: item, inputValue: ..., ...otherStateToSet })`. -/
def selectItemC (p : Props) (inst : Inst) (item : JSVal) (o : RawObj) :
    Except String OpResult := do
  let inputVal ← selectInputValue p item
  let r := applyISS p inst (updOfRaw (rawMerge (selectBase p item inputVal) o))
  return (r.fst, [r.snd])

/-- `selectItem(item, otherStateToSet, cb)`. -/
def selectItem (p : Props) (inst : Inst) (item : JSVal) (o : RawObj) :
    Except String OpResult :=
  selectItemC p inst item (pickState o)

/-- `selectItemAtIndex(itemIndex, otherStateToSet, cb)`:
`const item = this.items[itemIndex]; if (item === null) return;` — the guard
rejects exactly the value `null`, so an out-of-range or `null` index (which
indexes to `undefined`) passes through to `selectItem`. -/
def selectItemAtIndex (p : Props) (inst : Inst) (idx : JSVal) (o : RawObj) :
    Except String OpResult :=
  let item := getItem inst.items idx
  if item = JSVal.null then Except.ok (inst, [])
  else selectItem p inst item o

/-- `selectHighlightedItem(otherStateToSet, cb)`: selects at the merged
`highlightedIndex`. -/
def selectHighlightedItem (p : Props) (inst : Inst) (o : RawObj) :
    Except String OpResult :=
  selectItemAtIndex p inst (getState p inst.store StateField.highlightedIndex) o

/-- The explicit properties of the function-form update of `reset`:
`({ selectedItem }) => ({ isOpen: false, highlightedIndex:
props.defaultHighlightedIndex, inputValue: props.itemToString(selectedItem),
...otherStateToSet })`, where `selectedItem` is taken from the merged state. -/
def resetBase (p : Props) (sel : JSVal) : RawObj :=
  rawSet (rawSet (rawSet rawEmpty
    "isOpen" (JSVal.b false))
    "highlightedIndex" p.defaultHighlightedIndex)
    "inputValue" (JSVal.s (p.itemToString sel))

/-- Core of `reset` after `pickState` (see `reset` below for the source
shape). -/
def resetC (p : Props) (inst : Inst) (o : RawObj) : OpResult :=
  let r := applyISS p inst
    (updOfRaw (rawMerge (resetBase p (getState p inst.store StateField.selectedItem)) o))
  (r.fst, [r.snd])

/-- `reset(otherStateToSet = {}, cb)`. -/
def reset (p : Props) (inst : Inst) (o : RawObj) : OpResult :=
  resetC p inst (pickState o)

/-- Core of `toggleMenu` after `pickState`: the function-form update
`({ isOpen }) => ({ isOpen: !isOpen, ...otherStateToSet })`, then, in the
completion callback, `highlightDefaultIndex()` (that is,
`setHighlightedIndex(undefined, {})`) when the resulting merged state is
open. -/
def toggleMenuC (p : Props) (inst : Inst) (o : RawObj) : OpResult :=
  let wasOpen := truthy (getState p inst.store StateField.isOpen)
  let base := rawSet rawEmpty "isOpen" (JSVal.b (!wasOpen))
  let r := applyISS p inst (updOfRaw (rawMerge base o))
  let inst1 := r.fst
  if truthy (getState p inst1.store StateField.isOpen) then
    let r2 := setHighlightedIndex p inst1 none rawEmpty
    (r2.fst, r.snd :: r2.snd)
  else
    (inst1, [r.snd])

/-- `toggleMenu(otherStateToSet = {}, cb)`. -/
def toggleMenu (p : Props) (inst : Inst) (o : RawObj) : OpResult :=
  toggleMenuC p inst (pickState o)

/-- The index-wrapping arithmetic of `changeHighlightedIndex`:
`newIndex = baseIndex + moveAmount; if (newIndex < 0) newIndex = itemsLastIndex;
else if (newIndex > itemsLastIndex) newIndex = 0;`. -/
def wrapIndex (itemsLastIndex base amount : Int) : Int :=
  if base + amount < 0 then itemsLastIndex
  else if base + amount > itemsLastIndex then 0
  else base + amount

/-- `changeHighlightedIndex(moveAmount, otherStateToSet)`.  Early return when
`getItemCount() - 1 < 0`.  A `null` merged `highlightedIndex` gives base index
`-1` for downward moves and `itemsLastIndex + 1` for upward ones.  The merged
`highlightedIndex` is always `null` or an integer in this component (the
catch-all branch is outside the modelled domain and is never relied upon). -/
def changeHighlightedIndex (p : Props) (inst : Inst) (amount : Int) (o : RawObj) : OpResult :=
  let itemsLastIndex := getItemCount p inst - 1
  if itemsLastIndex < 0 then (inst, [])
  else
    match getState p inst.store StateField.highlightedIndex with
    | JSVal.null =>
      let base := if amount > 0 then (-1 : Int) else itemsLastIndex + 1
      setHighlightedIndex p inst (some (JSVal.i (wrapIndex itemsLastIndex base amount))) o
    | JSVal.i n =>
      setHighlightedIndex p inst (some (JSVal.i (wrapIndex itemsLastIndex n amount))) o
    | _ => (inst, [])

/-- `openAndHighlightDefaultIndex(otherStateToSet = {})`:
`setHighlightedIndex(undefined, { isOpen: true, ...otherStateToSet })`. -/
def openAndHighlightDefaultIndex (p : Props) (inst : Inst) (o : RawObj) : OpResult :=
  setHighlightedIndex p inst none (rawMerge (rawSet rawEmpty "isOpen" (JSVal.b true)) o)

/-- `moveHighlightedIndex(amount, otherStateToSet)`: change the index when the
merged state is open, otherwise open the menu and highlight the default
index. -/
def moveHighlightedIndex (p : Props) (inst : Inst) (amount : Int) (o : RawObj) : OpResult :=
  if truthy (getState p inst.store StateField.isOpen) then
    changeHighlightedIndex p inst amount o
  else
    openAndHighlightDefaultIndex p inst o

/-- The `stateChangeTypes` tags used by the modelled handlers. -/
def typeArrowDown : String := "__autocomplete_keydown_arrow_down__"

/-- Tag of the ArrowUp handler. -/
def typeArrowUp : String := "__autocomplete_keydown_arrow_up__"

/-- Tag of the Enter handler. -/
def typeEnter : String := "__autocomplete_keydown_enter__"

/-- Tag of the Escape handler. -/
def typeEscape : String := "__autocomplete_keydown_escape__"

/-- Tag of the input blur handler. -/
def typeBlur : String := "__autocomplete_blur_input__"

/-- The `ArrowDown` key handler: move by `5` with Shift held, else `1`. -/
def keyDownArrowDown (p : Props) (inst : Inst) (shift : Bool) : OpResult :=
  moveHighlightedIndex p inst (if shift then 5 else 1) (typeRaw typeArrowDown)

/-- The `ArrowUp` key handler: move by `-5` with Shift held, else `-1`. -/
def keyDownArrowUp (p : Props) (inst : Inst) (shift : Bool) : OpResult :=
  moveHighlightedIndex p inst (if shift then -5 else -1) (typeRaw typeArrowUp)

/-- The `Enter` key handler: select the highlighted item when the merged state
is open, otherwise do nothing. -/
def keyDownEnter (p : Props) (inst : Inst) : Except String OpResult :=
  if truthy (getState p inst.store StateField.isOpen) then
    selectHighlightedItem p inst (typeRaw typeEnter)
  else Except.ok (inst, [])

/-- The `Escape` key handler: `reset({ type: keyDownEscape })`. -/
def keyDownEscape (p : Props) (inst : Inst) : OpResult :=
  reset p inst (typeRaw typeEscape)

/-- `input_handleBlur`: reset unless a pointer button is held down. -/
def inputHandleBlur (p : Props) (inst : Inst) (isMouseDown : Bool) : OpResult :=
  if isMouseDown then (inst, [])
  else reset p inst (typeRaw typeBlur)

/-- A click on the list item at `index` (`getItemProps`' `onClick`):
`selectItemAtIndex(index)` with no extra state. -/
def clickItemAtIndex (p : Props) (inst : Inst) (index : Int) : Except String OpResult :=
  selectItemAtIndex p inst (JSVal.i index) rawEmpty

/-- Whether a later trigger cancels the debounce timer started by the trigger
at `c`: some trigger lands strictly inside the window `(c, c + wait)`
(`clearTimeout` before the timer fires). -/
def cancelsLater (calls : List Nat) (wait c : Nat) : Bool :=
  calls.any fun c2 => decide (c < c2) && decide (c2 < c + wait)

/-- Trailing-edge debounce (utils.js `debounce` / the `debounce-fn` wrapper
around `GooglePredictions.fetch`): every trigger restarts the timer, so the
wrapped body runs at `c + wait` exactly for those triggers `c` not followed by
another trigger strictly within the wait window. -/
def debounceFireTimes (calls : List Nat) (wait : Nat) : List Nat :=
  (calls.filter fun c => !(cancelsLater calls wait c)).map (fun c => c + wait)

/-- The times at which `GooglePredictions.fetch` actually invokes the external
`getPlacePredictions` API.  The debounced body reads `this.mounted` and
`this.props.query` at execution time and returns early when the component is
unmounted or the query length is at most the threshold. -/
def apiCallTimes (mountedAt : Nat → Bool) (queryAt : Nat → String)
    (threshold wait : Nat) (triggers : List Nat) : List Nat :=
  (debounceFireTimes triggers wait).filter fun t =>
    mountedAt t && decide (threshold < (queryAt t).length)

/-- A strictly ascending sequence of trigger times whose successive gaps are
all smaller than the wait window (a "burst" of keystrokes). -/
def ascendingGapsB (wait : Nat) : List Nat → Bool
  | [] => true
  | [_] => true
  | a :: b :: t => decide (a < b) && decide (b < a + wait) && ascendingGapsB wait (b :: t)

/-- Decide whether the character list `a` starts the character list `cs`. -/
def isPref : List Char → List Char → Bool
  | [], _ => true
  | _ :: _, [] => false
  | a :: as, c :: cs => decide (a = c) && isPref as cs

/-- JavaScript `String.prototype.includes` on character lists. -/
def containsSub (hay needle : List Char) : Bool :=
  match hay with
  | [] => isPref needle []
  | _ :: t => isPref needle hay || containsSub t needle

/-- The emphasis markup the formatter produces: `` `<b>${match}</b>` ``. -/
def emph (m : List Char) : List Char :=
  "<b>".data ++ m ++ "</b>".data

/-- One left-to-right pass of
`text.replace(new RegExp(matches.join('|'), 'g'), match => ...)`:
at each position the first alternative (in the order given) that matches is
replaced, scanning resumes after the match.  The replacement callback wraps the
match in `<b>`-markup unless the original text already contains that exact
markup (`formatted[key]` still holds the original string when the callback
runs).  `fuel` bounds the recursion; every step consumes at least one character
because empty alternatives are not matched (an empty matched substring never
arises from the non-empty offsets the external API flags). -/
def replaceScanF (orig : List Char) (alts : List (List Char)) : Nat → List Char → List Char
  | 0, cs => cs
  | _ + 1, [] => []
  | fuel + 1, c :: rest =>
    match (alts.filter fun a => !a.isEmpty).find? (fun a => isPref a (c :: rest)) with
    | some a =>
      (if containsSub orig (emph a) then a else emph a) ++
        replaceScanF orig alts fuel (rest.drop (a.length - 1))
    | none => c :: replaceScanF orig alts fuel rest

/-- Global regex replacement over a string, with the alternatives and the
replacement callback of `formatPredictions`. -/
def replaceMatches (text : String) (alts : List String) : String :=
  String.mk (replaceScanF text.data (alts.map String.data) text.data.length text.data)

/-- One externally-flagged matched substring (`{ offset, length }`). -/
structure MatchedSub where
  offset : Nat
  length : Nat

/-- JavaScript `text.substr(offset, length)` for non-negative arguments. -/
def substrJS (text : String) (off len : Nat) : String :=
  String.mk ((text.data.drop off).take len)

/-- `formatPredictions` applied to one text field: when a
`..._matched_substrings` array is present, extract each flagged substring and
replace its occurrences by emphasised markup; otherwise the text is kept
verbatim. -/
def formatText (text : String) (subs : Option (List MatchedSub)) : String :=
  match subs with
  | none => text
  | some ms =>
    replaceMatches text (ms.map fun m => substrJS text m.offset m.length)

/-- The `structured_formatting` part of one prediction. -/
structure StructuredFormatting where
  main_text : String
  secondary_text : String
  main_text_matched_substrings : Option (List MatchedSub)
  secondary_text_matched_substrings : Option (List MatchedSub)

/-- The `formatted` object `formatPredictions` attaches to one prediction:
formatted `(main_text, secondary_text)`. -/
def formatPrediction (sf : StructuredFormatting) : String × String :=
  (formatText sf.main_text sf.main_text_matched_substrings,
   formatText sf.secondary_text sf.secondary_text_matched_substrings)

/-- Truthiness of an optional credential string: absent (`undefined`) and the
empty string are falsy, any other string is truthy. -/
def truthyStr : Option String → Bool
  | none => false
  | some x => !x.isEmpty

/-- The options relevant to `GoogleLibraryService`'s licence validation. -/
structure LibOptions where
  apiKey : Option String
  client : Option String

/-- The two licence checks the `GoogleLibraryService` constructor runs
synchronously, in source order, before any script loading:
`if (!apiKey && !client) throw ...; if (apiKey && client) throw ...`. -/
def validateLicense (o : LibOptions) : Except String Unit :=
  if !truthyStr o.apiKey && !truthyStr o.client then
    Except.error "You must provide an API Key OR ClientID!"
  else if truthyStr o.apiKey && truthyStr o.client then
    Except.error "API Key AND ClientID given, please use only one of the two!"
  else Except.ok ()

/-- Whether an `Except` result is a success. -/
def exceptOk : Except String Unit → Bool
  | Except.ok _ => true
  | Except.error _ => false

/-- A fully uncontrolled `Props` configuration with all defaults
(`defaultHighlightedIndex: null`, `defaultInputValue: ''`, the default
`itemToString`, no `breakingChanges`, no `itemCount` prop), used to evaluate
the theorems on concrete inputs. -/
def pUn : Props :=
  { controlled := fun _ => none
    defaultHighlightedIndex := JSVal.null
    defaultInputValue := ""
    itemToString := defaultItemToString
    breakingChanges := none
    itemCount := none }

/-- A `Props` configuration whose `isOpen` prop is controlled (passed as
`true` by the caller). -/
def pCtrl : Props :=
  { controlled := fun f =>
      match f with
      | StateField.isOpen => some (JSVal.b true)
      | _ => none
    defaultHighlightedIndex := JSVal.null
    defaultInputValue := ""
    itemToString := defaultItemToString
    breakingChanges := none
    itemCount := none }

/-- The internal state the constructor produces from the default props. -/
def store0 : StateField → JSVal
  | StateField.highlightedIndex => JSVal.null
  | StateField.isOpen => JSVal.b false
  | StateField.inputValue => JSVal.s ""
  | StateField.selectedItem => JSVal.null

/-- An internal state with the menu open and item `0` highlighted. -/
def storeOpen : StateField → JSVal
  | StateField.highlightedIndex => JSVal.i 0
  | StateField.isOpen => JSVal.b true
  | StateField.inputValue => JSVal.s "b"
  | StateField.selectedItem => JSVal.null

/-- An internal state with the menu open and no highlighted index (`null`). -/
def storeOpenNull : StateField → JSVal
  | StateField.highlightedIndex => JSVal.null
  | StateField.isOpen => JSVal.b true
  | StateField.inputValue => JSVal.s "b"
  | StateField.selectedItem => JSVal.null

/-- A concrete closed instance: fresh state, two rendered items. -/
def inst0 : Inst :=
  { store := store0, items := [JSVal.s "Berlin", JSVal.s "Bremen"], itemCount := none }

/-- A concrete open instance with item `0` highlighted and two items. -/
def instOpen : Inst :=
  { store := storeOpen, items := [JSVal.s "Berlin", JSVal.s "Bremen"], itemCount := none }

/-- A concrete open instance with a `null` highlighted index and two items. -/
def instOpenNull : Inst :=
  { store := storeOpenNull, items := [JSVal.s "Berlin", JSVal.s "Bremen"], itemCount := none }

/-- An update writing `selectedItem: undefined` (as produced by selecting an
out-of-range index), with no other keys. -/
def u0 : Update :=
  { fields := fun f =>
      match f with
      | StateField.selectedItem => some JSVal.undef
      | _ => none
    type := none }

/-- An update writing `selectedItem: 'x'`, with no other keys. -/
def uSel : Update :=
  { fields := fun f =>
      match f with
      | StateField.selectedItem => some (JSVal.s "x")
      | _ => none
    type := none }

/-- An update writing `isOpen: false`, with no other keys. -/
def uIsOpen : Update :=
  { fields := fun f =>
      match f with
      | StateField.isOpen => some (JSVal.b false)
      | _ => none
    type := none }

/-- A raw object holding only a key outside `stateKeys`. -/
def oJunk : RawObj :=
  fun k => if k = "foo" then some (JSVal.b true) else none

/-- The objects `{ type: s }` contain none of the four state fields. -/
lemma pickState_typeRaw_field (s : String) (f : StateField) :
    pickState (typeRaw s) (keyOfField f) = none := by
  cases f <;> rfl

/-- The empty object contains none of the four state fields. -/
lemma pickState_empty_field (f : StateField) :
    pickState rawEmpty (keyOfField f) = none := by
  cases f <;> rfl

/-- When the spread extra state contains no explicit field key, the resolved
update takes every field from the base object. -/
lemma updOfRaw_rawMerge_field (base o : RawObj) (f : StateField)
    (hfo : pickState o (keyOfField f) = none) :
    (updOfRaw (rawMerge base (pickState o))).fields f = base (keyOfField f) := by
  unfold updOfRaw rawMerge
  dsimp only
  rw [hfo]

/-- An uncontrolled field named by the update is written to the store. -/
lemma applyISS_store_set (p : Props) (inst : Inst) (u : Update) (f : StateField) (v : JSVal)
    (hcf : p.controlled f = none) (hu : u.fields f = some v) :
    ((applyISS p inst u).fst).store f = v := by
  simp [applyISS, internalSetState, hu, hcf]

/-- `internalSetState` leaves `this.items` alone. -/
lemma applyISS_items (p : Props) (inst : Inst) (u : Update) :
    ((applyISS p inst u).fst).items = inst.items := rfl

/-- `internalSetState` leaves `this.itemCount` alone. -/
lemma applyISS_itemCount (p : Props) (inst : Inst) (u : Update) :
    ((applyISS p inst u).fst).itemCount = inst.itemCount := rfl

/-- With no controlled props the merged state is the internal store. -/
lemma getState_uncontrolled (p : Props) (store : StateField → JSVal) (f : StateField)
    (hc : ∀ g, p.controlled g = none) : getState p store f = store f := by
  unfold getState
  rw [hc]

/-- Full evaluation of `selectItem` in the uncontrolled configuration when the
extra state object carries no field keys: the call succeeds, closes the list,
stores the item, sets the input text to its string form, resets the highlight
to the default, and fires exactly one notification batch whose `onSelect`
carries the item. -/
lemma selectItem_eval (p : Props) (inst : Inst) (item : JSVal) (o : RawObj)
    (hc : ∀ f, p.controlled f = none)
    (hfo : ∀ f, pickState o (keyOfField f) = none) :
    ∃ inst2 r, selectItem p inst item o = Except.ok (inst2, [r]) ∧
      inst2.store StateField.isOpen = JSVal.b false ∧
      inst2.store StateField.inputValue = JSVal.s (p.itemToString item) ∧
      inst2.store StateField.selectedItem = item ∧
      inst2.store StateField.highlightedIndex = p.defaultHighlightedIndex ∧
      inst2.items = inst.items ∧ inst2.itemCount = inst.itemCount ∧
      r.selectFired = true ∧ r.selectArg = item := by
  have hsel : selectInputValue p item = Except.ok (JSVal.s (p.itemToString item)) := by
    unfold selectInputValue isControlledProp
    rw [hc StateField.selectedItem]
    rfl
  have hfield : ∀ f,
      (updOfRaw (rawMerge (selectBase p item (JSVal.s (p.itemToString item))) (pickState o))).fields f
        = selectBase p item (JSVal.s (p.itemToString item)) (keyOfField f) :=
    fun f => updOfRaw_rawMerge_field _ _ f (hfo f)
  unfold selectItem selectItemC
  simp only [hsel, bind, Except.bind, pure, Except.pure]
  refine ⟨_, _, rfl, ?_, ?_, ?_, ?_, applyISS_items _ _ _, applyISS_itemCount _ _ _, ?_, ?_⟩
  · exact applyISS_store_set p inst _ _ _ (hc _) ((hfield StateField.isOpen).trans rfl)
  · exact applyISS_store_set p inst _ _ _ (hc _) ((hfield StateField.inputValue).trans rfl)
  · exact applyISS_store_set p inst _ _ _ (hc _) ((hfield StateField.selectedItem).trans rfl)
  · exact applyISS_store_set p inst _ _ _ (hc _) ((hfield StateField.highlightedIndex).trans rfl)
  · simp [applyISS, internalSetState, hfield StateField.selectedItem]
    rfl
  · simp [applyISS, internalSetState, hfield StateField.selectedItem]
    rfl

/-- Full evaluation of `reset` in the uncontrolled configuration when the
extra state object carries no field keys. -/
lemma reset_eval (p : Props) (inst : Inst) (o : RawObj)
    (hc : ∀ f, p.controlled f = none)
    (hfo : ∀ f, pickState o (keyOfField f) = none) :
    ∃ inst2 r, reset p inst o = (inst2, [r]) ∧
      inst2.store StateField.isOpen = JSVal.b false ∧
      inst2.store StateField.inputValue =
        JSVal.s (p.itemToString (inst.store StateField.selectedItem)) ∧
      inst2.store StateField.highlightedIndex = p.defaultHighlightedIndex ∧
      inst2.store StateField.selectedItem = inst.store StateField.selectedItem := by
  have hmerged : getState p inst.store StateField.selectedItem
      = inst.store StateField.selectedItem := getState_uncontrolled p inst.store _ hc
  have hfield : ∀ f,
      (updOfRaw (rawMerge (resetBase p (getState p inst.store StateField.selectedItem)) (pickState o))).fields f
        = resetBase p (getState p inst.store StateField.selectedItem) (keyOfField f) :=
    fun f => updOfRaw_rawMerge_field _ _ f (hfo f)
  unfold reset resetC
  refine ⟨_, _, rfl, ?_, ?_, ?_, ?_⟩
  · exact applyISS_store_set p inst _ _ _ (hc _) ((hfield StateField.isOpen).trans rfl)
  · rw [applyISS_store_set p inst _ _ _ (hc _) ((hfield StateField.inputValue).trans rfl), hmerged]
  · exact applyISS_store_set p inst _ _ _ (hc _) ((hfield StateField.highlightedIndex).trans rfl)
  · simp [applyISS, internalSetState, hfield StateField.selectedItem]
    rfl

/-- The wrapped index is always inside `[0, itemsLastIndex]` once the list is
non-empty, whatever the base index and the move amount. -/
lemma wrapIndex_bounds (last base amount : Int) (h : 0 ≤ last) :
    0 ≤ wrapIndex last base amount ∧ wrapIndex last base amount ≤ last := by
  unfold wrapIndex
  split
  · omega
  · split <;> omega

/-- Moving upwards (negative amount) from index `0` wraps to the last index. -/
lemma wrapIndex_up_from_zero (last amount : Int) (ha : amount < 0) :
    wrapIndex last 0 amount = last := by
  unfold wrapIndex
  split
  · rfl
  · omega

/-- Moving downwards (positive amount) from the last index wraps to `0`. -/
lemma wrapIndex_down_from_last (last amount : Int) (h : 0 ≤ last) (ha : 0 < amount) :
    wrapIndex last last amount = 0 := by
  unfold wrapIndex
  split
  · omega
  · split
    · rfl
    · omega

/-- `setHighlightedIndex` with an explicit index and a type-only extra state
stores exactly that index when `highlightedIndex` is uncontrolled. -/
lemma setHighlightedIndex_typeRaw_store (p : Props) (inst : Inst) (v : JSVal) (s : String)
    (h : p.controlled StateField.highlightedIndex = none) :
    ((setHighlightedIndex p inst (some v) (typeRaw s)).fst).store StateField.highlightedIndex = v := by
  unfold setHighlightedIndex setHighlightedIndexC
  exact applyISS_store_set p inst _ _ _ h
    ((updOfRaw_rawMerge_field _ _ StateField.highlightedIndex (pickState_typeRaw_field s _)).trans rfl)

/-- In an ascending burst every element after the head is larger than the
head. -/
lemma ascendingGapsB_head_lt (wait : Nat) (l : List Nat) :
    ∀ a, ascendingGapsB wait (a :: l) = true → ∀ c ∈ l, a < c := by
  induction l with
  | nil =>
    intro a _ c hc
    cases hc
  | cons b t ih =>
    intro a h c hc
    unfold ascendingGapsB at h
    simp only [Bool.and_eq_true, decide_eq_true_eq] at h
    obtain ⟨⟨hab, _⟩, ht⟩ := h
    rcases List.mem_cons.mp hc with hcb | hct
    · subst hcb
      exact hab
    · exact lt_trans hab (ih b ht c hct)

/-- A trigger can only be cancelled by a strictly later trigger, so dropping
an earlier trigger from the list does not change whether `c` is cancelled. -/
lemma cancelsLater_cons_ge (a c wait : Nat) (rest : List Nat) (h : a ≤ c) :
    cancelsLater (a :: rest) wait c = cancelsLater rest wait c := by
  unfold cancelsLater
  simp only [List.any_cons]
  have hfalse : (decide (c < a) && decide (a < c + wait)) = false := by
    have : ¬ (c < a) := by omega
    simp [this]
  rw [hfalse, Bool.false_or]

/-- In a burst of triggers with gaps below the wait window, only the last
trigger's timer survives: the debounced body runs exactly once, one window
after the last trigger. -/
lemma debounce_burst (wait : Nat) :
    ∀ (l : List Nat) (a : Nat), ascendingGapsB wait (a :: l) = true →
      debounceFireTimes (a :: l) wait = [(a :: l).getLast (List.cons_ne_nil a l) + wait] := by
  intro l
  induction l with
  | nil =>
    intro a _
    unfold debounceFireTimes cancelsLater
    simp
  | cons b t ih =>
    intro a h
    have h' := h
    unfold ascendingGapsB at h'
    simp only [Bool.and_eq_true, decide_eq_true_eq] at h'
    obtain ⟨⟨hab, hbw⟩, ht⟩ := h'
    have hlt := ascendingGapsB_head_lt wait (b :: t) a h
    unfold debounceFireTimes
    have hlast : (a :: b :: t).getLast (List.cons_ne_nil a (b :: t)) =
        (b :: t).getLast (List.cons_ne_nil b t) := by
      simp [List.getLast]
    rw [hlast]
    have hcancel_a : cancelsLater (a :: b :: t) wait a = true := by
      unfold cancelsLater
      simp only [List.any_cons, List.any_eq_true, Bool.or_eq_true, Bool.and_eq_true,
        decide_eq_true_eq]
      right
      left
      exact ⟨hab, hbw⟩
    have hfilter : (a :: b :: t).filter (fun c => !(cancelsLater (a :: b :: t) wait c)) =
        (b :: t).filter (fun c => !(cancelsLater (b :: t) wait c)) := by
      rw [List.filter_cons, hcancel_a]
      simp only [Bool.not_true, if_false]
      apply List.filter_congr
      intro c hc
      rw [cancelsLater_cons_ge a c wait (b :: t) (le_of_lt (hlt c hc))]
    rw [hfilter]
    have hrec := ih b ht
    unfold debounceFireTimes at hrec
    exact hrec

/-- Agreement on the five state keys makes `pickState` agree everywhere. -/
lemma pickState_congr (o o' : RawObj) (h : ∀ k ∈ stateKeys, o k = o' k) :
    pickState o = pickState o' := by
  funext k
  unfold pickState
  by_cases hk : k ∈ stateKeys
  · rw [if_pos hk, if_pos hk, h k hk]
  · rw [if_neg hk, if_neg hk]

/-- Claim C1: for every highlight-move operation (ArrowUp/ArrowDown, with or
without the Shift ±5 modifier) issued in the open state with an uncontrolled
`highlightedIndex` (whose current merged value is, as always in this
component, `null` or an integer): when `itemCount > 0` the resulting
highlighted index lies in `[0, itemCount)`; moving up from index `0` yields
the last index and moving down from the last index yields index `0`; and when
`itemCount = 0` the move is a no-op (no state write, no notification).
Sequences of moves are covered because the starting state is arbitrary. -/
theorem claimC1_highlight_moves_wrap (p : Props) (inst : Inst) (up shift : Bool)
    (hunc : p.controlled StateField.highlightedIndex = none)
    (hopen : truthy (getState p inst.store StateField.isOpen) = true)
    (hhi : getState p inst.store StateField.highlightedIndex = JSVal.null ∨
      ∃ n : Int, getState p inst.store StateField.highlightedIndex = JSVal.i n) :
    (0 < getItemCount p inst →
      ∃ j : Int,
        getState p ((if up then keyDownArrowUp p inst shift
            else keyDownArrowDown p inst shift).fst.store) StateField.highlightedIndex = JSVal.i j ∧
        0 ≤ j ∧ j < getItemCount p inst ∧
        (getState p inst.store StateField.highlightedIndex = JSVal.i 0 → up = true →
          j = getItemCount p inst - 1) ∧
        (getState p inst.store StateField.highlightedIndex = JSVal.i (getItemCount p inst - 1) →
          up = false → j = 0)) ∧
    (getItemCount p inst = 0 →
      (if up then keyDownArrowUp p inst shift else keyDownArrowDown p inst shift) = (inst, [])) := by
  have hamt : ∃ amt : Int, amt ≠ 0 ∧ (up = true → amt < 0) ∧ (up = false → 0 < amt) ∧
      (if up then keyDownArrowUp p inst shift else keyDownArrowDown p inst shift) =
        changeHighlightedIndex p inst amt (typeRaw (if up then typeArrowUp else typeArrowDown)) := by
    refine ⟨if up then (if shift then -5 else -1) else (if shift then 5 else 1), ?_, ?_, ?_, ?_⟩
    · cases up <;> cases shift <;> decide
    · cases up <;> cases shift <;> simp
    · cases up <;> cases shift <;> simp
    · cases up <;>
        simp only [if_true, if_false, Bool.false_eq_true, keyDownArrowUp, keyDownArrowDown,
          moveHighlightedIndex, hopen, if_pos]
  obtain ⟨amt, hamt0, hup, hdown, heq⟩ := hamt
  rw [heq]
  constructor
  · intro hcount
    have hlast : ¬ (getItemCount p inst - 1 < 0) := by omega
    rcases hhi with hnull | ⟨n, hn⟩
    · refine ⟨wrapIndex (getItemCount p inst - 1)
        (if amt > 0 then (-1 : Int) else getItemCount p inst - 1 + 1) amt, ?_, ?_, ?_, ?_, ?_⟩
      · unfold changeHighlightedIndex
        rw [hnull]
        simp only [hlast, if_false]
        rw [getState, hunc]
        exact setHighlightedIndex_typeRaw_store p inst _ _ hunc
      · exact (wrapIndex_bounds _ _ _ (by omega)).1
      · have hb := (wrapIndex_bounds (getItemCount p inst - 1)
          (if amt > 0 then (-1 : Int) else getItemCount p inst - 1 + 1) amt (by omega)).2
        omega
      · intro hzero
        rw [hnull] at hzero
        exact absurd hzero (by simp)
      · intro hlastidx
        rw [hnull] at hlastidx
        exact absurd hlastidx (by simp)
    · refine ⟨wrapIndex (getItemCount p inst - 1) n amt, ?_, ?_, ?_, ?_, ?_⟩
      · unfold changeHighlightedIndex
        rw [hn]
        simp only [hlast, if_false]
        rw [getState, hunc]
        exact setHighlightedIndex_typeRaw_store p inst _ _ hunc
      · exact (wrapIndex_bounds _ _ _ (by omega)).1
      · have hb := (wrapIndex_bounds (getItemCount p inst - 1) n amt (by omega)).2
        omega
      · intro hzero hu
        rw [hn] at hzero
        have hn0 : n = 0 := by cases hzero; rfl
        subst hn0
        exact wrapIndex_up_from_zero _ _ (hup hu)
      · intro hlastidx hd
        rw [hn] at hlastidx
        have hnl : n = getItemCount p inst - 1 := by cases hlastidx; rfl
        subst hnl
        exact wrapIndex_down_from_last _ _ (by omega) (hdown hd)
  · intro hcount
    unfold changeHighlightedIndex
    rw [if_pos (by omega)]

/-- Witness for C1 at a concrete input: two items, item `0` highlighted, menu
open, ArrowUp without Shift — the highlight wraps to the last index `1`. -/
theorem claimC1_highlight_moves_wrap_witness :
    ∃ j : Int,
      getState pUn ((keyDownArrowUp pUn instOpen false).fst.store) StateField.highlightedIndex
        = JSVal.i j ∧
      0 ≤ j ∧ j < getItemCount pUn instOpen ∧ j = getItemCount pUn instOpen - 1 := by
  obtain ⟨j, h1, h2, h3, h4, _⟩ :=
    (claimC1_highlight_moves_wrap pUn instOpen true false rfl rfl
      (Or.inr ⟨0, rfl⟩)).1 (by decide)
  refine ⟨j, by simpa using h1, h2, h3, h4 rfl rfl⟩

/-- Claim C2: a controlled field is never written to the internal store by an
update naming it; the new value only reaches the caller through the
`onStateChange` argument (when it differs from the merged current value). -/
theorem claimC2_controlled_not_stored (p : Props) (store : StateField → JSVal) (u : Update)
    (f : StateField) (h : isControlledProp p f = true) :
    (internalSetState p store u).store f = store f ∧
      (∀ v, u.fields f = some v → v ≠ getState p store f →
        (internalSetState p store u).stateChangeArg f = some v) := by
  unfold internalSetState isControlledProp at *
  constructor
  · cases hu : u.fields f <;> simp [hu, h]
  · intro v hv hne
    simp [hv, Ne.symm hne]

/-- Witness for C2: with `isOpen` controlled as `true`, an update writing
`isOpen: false` leaves the store untouched and reports the value through the
state-change argument. -/
theorem claimC2_controlled_not_stored_witness :
    (internalSetState pCtrl store0 uIsOpen).store StateField.isOpen = store0 StateField.isOpen ∧
      (internalSetState pCtrl store0 uIsOpen).stateChangeArg StateField.isOpen
        = some (JSVal.b false) := by
  have h := claimC2_controlled_not_stored pCtrl store0 uIsOpen StateField.isOpen (by decide)
  exact ⟨h.1, h.2 (JSVal.b false) rfl (by decide)⟩

/-- Claim C3: in the uncontrolled configuration, every select operation —
Enter on a highlighted item (when the stored item is not `null`, the only
value the guard rejects), a click on a list item, or a direct `selectItem`
call — closes the list and sets `inputValue` to `itemToString` of the selected
item.  (For controlled `isOpen`/`inputValue` the component by design never
writes internal storage — see C2 — so the claim concerns the uncontrolled
fields.) -/
theorem claimC3_select_closes_and_sets_input (p : Props) (inst : Inst)
    (hc : ∀ f, p.controlled f = none) :
    (truthy (inst.store StateField.isOpen) = true →
      getItem inst.items (inst.store StateField.highlightedIndex) ≠ JSVal.null →
      ∃ inst2 r, keyDownEnter p inst = Except.ok (inst2, [r]) ∧
        inst2.store StateField.isOpen = JSVal.b false ∧
        inst2.store StateField.inputValue =
          JSVal.s (p.itemToString (getItem inst.items (inst.store StateField.highlightedIndex))) ∧
        inst2.store StateField.selectedItem =
          getItem inst.items (inst.store StateField.highlightedIndex)) ∧
    (∀ idx : Int, getItem inst.items (JSVal.i idx) ≠ JSVal.null →
      ∃ inst2 r, clickItemAtIndex p inst idx = Except.ok (inst2, [r]) ∧
        inst2.store StateField.isOpen = JSVal.b false ∧
        inst2.store StateField.inputValue =
          JSVal.s (p.itemToString (getItem inst.items (JSVal.i idx))) ∧
        inst2.store StateField.selectedItem = getItem inst.items (JSVal.i idx)) ∧
    (∀ item : JSVal,
      ∃ inst2 r, selectItem p inst item rawEmpty = Except.ok (inst2, [r]) ∧
        inst2.store StateField.isOpen = JSVal.b false ∧
        inst2.store StateField.inputValue = JSVal.s (p.itemToString item) ∧
        inst2.store StateField.selectedItem = item) := by
  refine ⟨?_, ?_, ?_⟩
  · intro hopen hnn
    obtain ⟨inst2, r, heq, h1, h2, h3, _⟩ :=
      selectItem_eval p inst (getItem inst.items (inst.store StateField.highlightedIndex))
        (typeRaw typeEnter) hc (pickState_typeRaw_field _)
    refine ⟨inst2, r, ?_, h1, h2, h3⟩
    unfold keyDownEnter selectHighlightedItem selectItemAtIndex
    rw [getState_uncontrolled p inst.store StateField.isOpen hc, hopen,
      getState_uncontrolled p inst.store StateField.highlightedIndex hc]
    simp only [if_true]
    rw [if_neg hnn]
    exact heq
  · intro idx hnn
    obtain ⟨inst2, r, heq, h1, h2, h3, _⟩ :=
      selectItem_eval p inst (getItem inst.items (JSVal.i idx)) rawEmpty hc
        pickState_empty_field
    refine ⟨inst2, r, ?_, h1, h2, h3⟩
    unfold clickItemAtIndex selectItemAtIndex
    rw [if_neg hnn]
    exact heq
  · intro item
    obtain ⟨inst2, r, heq, h1, h2, h3, _⟩ :=
      selectItem_eval p inst item rawEmpty hc pickState_empty_field
    exact ⟨inst2, r, heq, h1, h2, h3⟩

/-- Witness for C3 at a concrete input: Enter with item `0` ("Berlin")
highlighted in an open two-item list closes the list and sets the input text
to "Berlin". -/
theorem claimC3_select_closes_and_sets_input_witness :
    ∃ inst2 r, keyDownEnter pUn instOpen = Except.ok (inst2, [r]) ∧
      inst2.store StateField.isOpen = JSVal.b false ∧
      inst2.store StateField.inputValue = JSVal.s "Berlin" ∧
      inst2.store StateField.selectedItem = JSVal.s "Berlin" := by
  obtain ⟨inst2, r, heq, h1, h2, h3⟩ :=
    (claimC3_select_closes_and_sets_input pUn instOpen (fun _ => rfl)).1 rfl (by decide)
  exact ⟨inst2, r, heq, h1, h2, h3⟩

/-- Counterexample to C4 as stated: an update carrying `selectedItem:
undefined` (exactly what selecting an out-of-range index produces) differs
from the prior selected item (`null`), yet `onChange` does not fire, because
the source only fires it when its accumulated argument is not `undefined`. -/
theorem claimC4_counterexample :
    ¬ (((internalSetState pUn store0 u0).changeFired = true) ↔
        ((u0.fields StateField.selectedItem).getD JSVal.undef ≠
          getState pUn store0 StateField.selectedItem)) := by
  decide

/-- Claim C4 (amended): `onSelect` fires iff the update includes a
`selectedItem` key, with the new value as argument; `onChange` fires with the
new value iff the update includes a `selectedItem` key whose value differs
from the prior merged selected item AND is not `undefined`. -/
theorem claimC4_amended_callbacks (p : Props) (store : StateField → JSVal) (u : Update) :
    ((internalSetState p store u).selectFired = true ↔
      (u.fields StateField.selectedItem).isSome = true) ∧
    ((internalSetState p store u).selectFired = true →
      (internalSetState p store u).selectArg =
        (u.fields StateField.selectedItem).getD JSVal.undef) ∧
    ((internalSetState p store u).changeFired = true ↔
      ((u.fields StateField.selectedItem).isSome = true ∧
        (u.fields StateField.selectedItem).getD JSVal.undef
          ≠ getState p store StateField.selectedItem ∧
        (u.fields StateField.selectedItem).getD JSVal.undef ≠ JSVal.undef)) ∧
    ((internalSetState p store u).changeFired = true →
      (internalSetState p store u).changeArg =
        (u.fields StateField.selectedItem).getD JSVal.undef) := by
  unfold internalSetState
  refine ⟨by simp, by simp, ?_, ?_⟩
  · cases hu : u.fields StateField.selectedItem with
    | none => simp [hu]
    | some v =>
      by_cases hne : v ≠ getState p store StateField.selectedItem <;> simp [hu, hne]
  · cases hu : u.fields StateField.selectedItem with
    | none => simp [hu]
    | some v =>
      by_cases hne : v ≠ getState p store StateField.selectedItem <;> simp [hu, hne]

/-- Witness for the amended C4: updating `selectedItem` to `'x'` over a `null`
selection fires both `onSelect` and `onChange` with `'x'`. -/
theorem claimC4_amended_callbacks_witness :
    (internalSetState pUn store0 uSel).selectFired = true ∧
      (internalSetState pUn store0 uSel).selectArg = JSVal.s "x" ∧
      (internalSetState pUn store0 uSel).changeFired = true ∧
      (internalSetState pUn store0 uSel).changeArg = JSVal.s "x" := by
  have h := claimC4_amended_callbacks pUn store0 uSel
  have hsel : (uSel.fields StateField.selectedItem).isSome = true := rfl
  have hfired := h.1.mpr hsel
  have hch := h.2.2.1.mpr ⟨hsel, by decide, by decide⟩
  exact ⟨hfired, h.2.1 hfired, hch, h.2.2.2 hch⟩

/-- Claim C5: in the uncontrolled configuration, for every state, an Escape
key press and a blur with no pointer button held both reset `inputValue` to
`itemToString` of the current selected item and close the list; with the
default `itemToString` and no selection the input becomes the empty string. -/
theorem claimC5_escape_blur_reset (p : Props) (inst : Inst)
    (hc : ∀ f, p.controlled f = none) :
    (∃ inst2 r, keyDownEscape p inst = (inst2, [r]) ∧
      inst2.store StateField.isOpen = JSVal.b false ∧
      inst2.store StateField.inputValue =
        JSVal.s (p.itemToString (inst.store StateField.selectedItem))) ∧
    (∃ inst2 r, inputHandleBlur p inst false = (inst2, [r]) ∧
      inst2.store StateField.isOpen = JSVal.b false ∧
      inst2.store StateField.inputValue =
        JSVal.s (p.itemToString (inst.store StateField.selectedItem))) ∧
    (p.itemToString = defaultItemToString → inst.store StateField.selectedItem = JSVal.null →
      ∀ inst2 r, keyDownEscape p inst = (inst2, [r]) →
        inst2.store StateField.inputValue = JSVal.s "") := by
  obtain ⟨i2, r, heq, h1, h2, _, _⟩ :=
    reset_eval p inst (typeRaw typeEscape) hc (pickState_typeRaw_field _)
  obtain ⟨i2b, rb, heqb, h1b, h2b, _, _⟩ :=
    reset_eval p inst (typeRaw typeBlur) hc (pickState_typeRaw_field _)
  refine ⟨⟨i2, r, heq, h1, h2⟩, ⟨i2b, rb, ?_, h1b, h2b⟩, ?_⟩
  · unfold inputHandleBlur
    simpa using heqb
  · intro hits hsel inst2' r' heq'
    unfold keyDownEscape at heq'
    rw [heq] at heq'
    cases heq'
    rw [h2, hits, hsel]
    rfl

/-- Witness for C5 at a concrete input: Escape on a fresh two-item instance
(no selection) closes the list and empties the input. -/
theorem claimC5_escape_blur_reset_witness :
    ∃ inst2 r, keyDownEscape pUn inst0 = (inst2, [r]) ∧
      inst2.store StateField.isOpen = JSVal.b false ∧
      inst2.store StateField.inputValue = JSVal.s "" := by
  have h := claimC5_escape_blur_reset pUn inst0 (fun _ => rfl)
  obtain ⟨inst2, r, heq, h1, _⟩ := h.1
  exact ⟨inst2, r, heq, h1, h.2.2 rfl rfl inst2 r heq⟩

/-- Claim C6: the debounced prediction fetcher makes no external API call at
any firing instant where the component is unmounted or the query length is at
most the threshold; and a burst of triggers with gaps below the debounce
window (with the component mounted and the final query longer than the
threshold at fire time) produces exactly one API call, one debounce interval
after the last trigger. -/
theorem claimC6_debounced_fetch :
    (∀ (mountedAt : Nat → Bool) (queryAt : Nat → String) (threshold wait : Nat)
      (triggers : List Nat),
      (∀ t, mountedAt t = false ∨ (queryAt t).length ≤ threshold) →
      apiCallTimes mountedAt queryAt threshold wait triggers = []) ∧
    (∀ (mountedAt : Nat → Bool) (queryAt : Nat → String) (threshold wait a : Nat)
      (l : List Nat),
      ascendingGapsB wait (a :: l) = true →
      mountedAt ((a :: l).getLast (List.cons_ne_nil a l) + wait) = true →
      threshold < (queryAt ((a :: l).getLast (List.cons_ne_nil a l) + wait)).length →
      apiCallTimes mountedAt queryAt threshold wait (a :: l) =
        [(a :: l).getLast (List.cons_ne_nil a l) + wait]) := by
  constructor
  · intro mountedAt queryAt threshold wait triggers h
    unfold apiCallTimes
    rw [List.filter_eq_nil_iff]
    intro t _
    rcases h t with hm | hq
    · simp [hm]
    · simp
      intro _
      omega
  · intro mountedAt queryAt threshold wait a l hasc hm hq
    unfold apiCallTimes
    rw [debounce_burst wait l a hasc, List.filter_cons]
    simp [hm, hq]

/-- Witness for C6: the query "be" (length 2 = threshold) never triggers a
call; three keystrokes at 0ms, 50ms, 120ms with query "berl" and a 200ms
debounce produce exactly one call at 320ms. -/
theorem claimC6_debounced_fetch_witness :
    apiCallTimes (fun _ => true) (fun _ => "be") 2 200 [0, 50] = [] ∧
      apiCallTimes (fun _ => true) (fun _ => "berl") 2 200 [0, 50, 120] = [320] := by
  constructor
  · exact claimC6_debounced_fetch.1 (fun _ => true) (fun _ => "be") 2 200 [0, 50]
      (fun t => Or.inr (show ("be".length ≤ 2) by decide))
  · exact claimC6_debounced_fetch.2 (fun _ => true) (fun _ => "berl") 2 200 0 [50, 120]
      (by decide) rfl (by decide)

/-- Claim C7: a prediction whose main text is "Berlin, Germany" with one
matched substring at offset 0 and length 4 formats to exactly "Berl" wrapped
in emphasis markup with the remainder "in, Germany" untouched, whatever the
secondary text and its matches are. -/
theorem claimC7_format_berlin (sec : String) (sm : Option (List MatchedSub)) :
    (formatPrediction ⟨"Berlin, Germany", sec, some [⟨0, 4⟩], sm⟩).fst =
      "<b>Berl</b>in, Germany" := rfl

/-- Claim C8: the `GoogleLibraryService` constructor raises its configuration
error exactly when the API key and the client ID are both supplied (truthy) or
both missing; supplying exactly one of the two passes validation. -/
theorem claimC8_license_validation (apiKey client : Option String) :
    exceptOk (validateLicense ⟨apiKey, client⟩) = !(truthyStr apiKey == truthyStr client) := by
  unfold validateLicense exceptOk
  cases h1 : truthyStr apiKey <;> cases h2 : truthyStr client <;> simp

/-- Claim C9: with the list open, an uncontrolled configuration and the
default `itemToString`, when the highlighted index names no stored item
(it is `null` or out of range, so indexing yields `undefined`, which the
`item === null` guard does not reject), Enter still proceeds: `onSelect`
fires with `undefined`, the list closes, `selectedItem` becomes `undefined`
and `inputValue` becomes the empty string. -/
theorem claimC9_undefined_item_selected (p : Props) (inst : Inst)
    (hc : ∀ f, p.controlled f = none)
    (hits : p.itemToString = defaultItemToString)
    (hopen : truthy (inst.store StateField.isOpen) = true)
    (hundef : getItem inst.items (inst.store StateField.highlightedIndex) = JSVal.undef) :
    ∃ inst2 r, keyDownEnter p inst = Except.ok (inst2, [r]) ∧
      inst2.store StateField.isOpen = JSVal.b false ∧
      inst2.store StateField.selectedItem = JSVal.undef ∧
      inst2.store StateField.inputValue = JSVal.s "" ∧
      r.selectFired = true ∧ r.selectArg = JSVal.undef := by
  obtain ⟨inst2, r, heq, h1, h2, h3, _, _, _, hsf, hsa⟩ :=
    selectItem_eval p inst JSVal.undef (typeRaw typeEnter) hc (pickState_typeRaw_field _)
  refine ⟨inst2, r, ?_, h1, h3, ?_, hsf, hsa⟩
  · unfold keyDownEnter selectHighlightedItem selectItemAtIndex
    rw [getState_uncontrolled p inst.store StateField.isOpen hc, hopen,
      getState_uncontrolled p inst.store StateField.highlightedIndex hc, hundef]
    simp only [if_true]
    rw [if_neg (by decide : ¬ (JSVal.undef = JSVal.null))]
    exact heq
  · rw [h2, hits]
    rfl

/-- Witness for C9 at a concrete input: an open two-item list with a `null`
highlighted index; Enter selects `undefined`, closes, and empties the
input. -/
theorem claimC9_undefined_item_selected_witness :
    ∃ inst2 r, keyDownEnter pUn instOpenNull = Except.ok (inst2, [r]) ∧
      inst2.store StateField.isOpen = JSVal.b false ∧
      inst2.store StateField.selectedItem = JSVal.undef ∧
      inst2.store StateField.inputValue = JSVal.s "" ∧
      r.selectFired = true ∧ r.selectArg = JSVal.undef :=
  claimC9_undefined_item_selected pUn instOpenNull (fun _ => rfl) rfl rfl rfl

/-- Claim C10: keys outside `{highlightedIndex, inputValue, isOpen,
selectedItem, type}` are discarded by `pickState`, so the four public
operations that accept an extra partial-state argument (`reset`,
`toggleMenu`, `selectItem`, `setHighlightedIndex`) are entirely insensitive
to them: neither the resulting instance nor any fired notification can
differ. -/
theorem claimC10_pickstate_discards :
    (∀ (o : RawObj) (k : String), k ∉ stateKeys → pickState o k = none) ∧
    (∀ (p : Props) (inst : Inst) (o o' : RawObj), (∀ k ∈ stateKeys, o k = o' k) →
      reset p inst o = reset p inst o' ∧
      toggleMenu p inst o = toggleMenu p inst o' ∧
      (∀ item, selectItem p inst item o = selectItem p inst item o') ∧
      (∀ hi, setHighlightedIndex p inst hi o = setHighlightedIndex p inst hi o')) := by
  constructor
  · intro o k hk
    unfold pickState
    rw [if_neg hk]
  · intro p inst o o' h
    have hp := pickState_congr o o' h
    refine ⟨?_, ?_, ?_, ?_⟩
    · unfold reset
      rw [hp]
    · unfold toggleMenu
      rw [hp]
    · intro item
      unfold selectItem
      rw [hp]
    · intro hi
      unfold setHighlightedIndex
      rw [hp]

/-- Witness for C10 at a concrete input: an object holding only the junk key
"foo" behaves like the empty object for all four operations, and `pickState`
drops "foo". -/
theorem claimC10_pickstate_discards_witness :
    pickState oJunk "foo" = none ∧
      reset pUn inst0 oJunk = reset pUn inst0 rawEmpty ∧
      toggleMenu pUn inst0 oJunk = toggleMenu pUn inst0 rawEmpty ∧
      selectItem pUn inst0 (JSVal.s "Berlin") oJunk
        = selectItem pUn inst0 (JSVal.s "Berlin") rawEmpty ∧
      setHighlightedIndex pUn inst0 none oJunk = setHighlightedIndex pUn inst0 none rawEmpty := by
  have h := (claimC10_pickstate_discards.2 pUn inst0 oJunk rawEmpty (by decide))
  exact ⟨claimC10_pickstate_discards.1 oJunk "foo" (by decide), h.1, h.2.1,
    h.2.2.1 (JSVal.s "Berlin"), h.2.2.2 none⟩
